import Mathlib

/-!
Shallow embedding of `txstatsd/server/processor.py` (Python 2).

Python floats are modelled as exact rationals (`ℚ`): every arithmetic
expression of the source is translated operation by operation, without
modelling binary rounding.  Python exceptions that can escape the source
functions are modelled with `Except PyErr`; a raised exception aborts the
computation (the partially mutated interpreter state after an uncaught
exception is not observed by any property below).  Python 2 `dict`s are
modelled as insertion-ordered association lists; none of the properties
below depend on the (unspecified) cross-key iteration order of CPython
dictionaries.  The processor is always constructed with `plugins=None`
(its default), so the plugin table is empty throughout.
-/

namespace TxStatsd

/-- Python exceptions that can escape the modelled code paths. -/
inductive PyErr where
  | valueError
  | zeroDivisionError
  | unboundLocal
  | indexError
deriving DecidableEq, Repr

instance {ε α : Type} [DecidableEq ε] [DecidableEq α] : DecidableEq (Except ε α) :=
  fun x y =>
    match x, y with
    | .error a, .error b =>
      if h : a = b then .isTrue (by rw [h])
      else .isFalse (fun hc => h (by injection hc))
    | .ok a, .ok b =>
      if h : a = b then .isTrue (by rw [h])
      else .isFalse (fun hc => h (by injection hc))
    | .error _, .ok _ => .isFalse (fun hc => Except.noConfusion hc)
    | .ok _, .error _ => .isFalse (fun hc => Except.noConfusion hc)

/-- One emitted Graphite sample: (metric name, value, timestamp). -/
abbrev Line := String × ℚ × ℤ

/-! ### Regular-expression character classes (`SPACES`, `SLASHES`, `NON_ALNUM`, `RATE`) -/

/-- Python 2 `\s` on byte strings: the six ASCII whitespace characters. -/
def isPySpace (c : Char) : Bool :=
  c = ' ' || c = '\t' || c = '\n' || c = '\r' || c = Char.ofNat 11 || c = Char.ofNat 12

/-- The `SLASHES` class `\/`. -/
def isSlash (c : Char) : Bool := c = '/'

/-- The complement of `NON_ALNUM = [^a-zA-Z_\-0-9\.]`: characters kept by
`normalize_key`. -/
def isKeyChar (c : Char) : Bool :=
  ('a' ≤ c && c ≤ 'z') || ('A' ≤ c && c ≤ 'Z') || c = '_' || c = '-' ||
    ('0' ≤ c && c ≤ '9') || c = '.'

/-- `re.sub` of the pattern `p+` by the single character `r`: every maximal
run of characters satisfying `p` is replaced by one copy of `r`.  The flag
records whether the previous character was part of a run. -/
def subRuns (p : Char → Bool) (r : Char) : List Char → Bool → List Char
  | [], _ => []
  | c :: cs, inRun =>
    if p c then
      if inRun then subRuns p r cs true else r :: subRuns p r cs true
    else c :: subRuns p r cs false

/-- `normalize_key` of `processor.py`: collapse whitespace runs to `_`,
slash runs to `-`, then delete every character outside `[a-zA-Z_\-0-9\.]`. -/
def normalize_key (s : String) : String :=
  String.mk ((subRuns isSlash '-' (subRuns isPySpace '_' s.toList false) false).filter isKeyChar)

/-- Python `str.strip()`: remove leading and trailing whitespace. -/
def pyStrip (s : String) : String :=
  String.mk (((s.toList.dropWhile isPySpace).reverse.dropWhile isPySpace).reverse)

/-- Python `c in s` for a single-character needle. -/
def hasChar (c : Char) (s : String) : Bool := s.toList.any (· = c)

/-- Python `s.split(sep, 1)` at the first occurrence of `sep`, specialised to
the call sites, which have already checked that `sep` occurs in `s` (when it
does not, the model returns `(s, "")`; that branch is unreachable in
`process`). -/
def splitFirst (c : Char) (s : String) : String × String :=
  (String.mk (s.toList.takeWhile (· ≠ c)),
   String.mk ((s.toList.dropWhile (· ≠ c)).drop 1))

/-- Python `s.split(sep)` for a single-character separator. -/
def pySplit (c : Char) (s : String) : List String := s.splitOn (String.mk [c])

/-- Value of a digit string. -/
def digitsVal (l : List Char) : ℕ := l.foldl (fun n c => 10 * n + (c.toNat - 48)) 0

/-- Python 2 `float(str)` on finite decimal literals:
`[ws] [+-] (digits [. digits] | . digits) [(e|E) [+-] digits] [ws]`.
Returns `none` where `float` raises `ValueError`.  (The special literals
`inf`/`nan` are outside the model; no property below feeds them in.) -/
def parseFloat (s : String) : Option ℚ :=
  let cs := (pyStrip s).toList
  let sgncs : ℚ × List Char :=
    match cs with
    | '+' :: r => (1, r)
    | '-' :: r => (-1, r)
    | _ => (1, cs)
  let sgn := sgncs.1
  let ipRest := sgncs.2.span Char.isDigit
  let ip := ipRest.1
  let fpRest : List Char × List Char :=
    match ipRest.2 with
    | '.' :: r => r.span Char.isDigit
    | _ => ([], ipRest.2)
  let fp := fpRest.1
  if ip.isEmpty && fp.isEmpty then none
  else
    let mant : ℚ := (digitsVal ip : ℚ) + (digitsVal fp : ℚ) / (10 : ℚ) ^ fp.length
    match fpRest.2 with
    | [] => some (sgn * mant)
    | e :: r =>
      if e = 'e' || e = 'E' then
        let esgnr : ℤ × List Char :=
          match r with
          | '+' :: r2 => (1, r2)
          | '-' :: r2 => (-1, r2)
          | _ => (1, r)
        let edRest := esgnr.2.span Char.isDigit
        if edRest.1.isEmpty || !edRest.2.isEmpty then none
        else some (sgn * mant * (10 : ℚ) ^ (esgnr.1 * (digitsVal edRest.1 : ℤ)))
      else none

/-- `RATE.match(s)` for `RATE = re.compile("^@([\d\.]+)")`: when `s` starts
with `@` followed by at least one digit or dot, return the captured group
(the maximal such prefix, by greediness); otherwise `None`. -/
def rateMatch (s : String) : Option String :=
  match s.toList with
  | '@' :: rest =>
    let ds := rest.takeWhile (fun c => c.isDigit || c = '.')
    if ds.isEmpty then none else some (String.mk ds)
  | _ => none

/-! ### Association-list model of Python dictionaries -/

/-- `m.get(k)` / `k in m`. -/
def alGet {α : Type} : List (String × α) → String → Option α
  | [], _ => none
  | (k', v) :: rest, k => if k' = k then some v else alGet rest k

/-- `m[k] = v`: update in place, or append a new binding. -/
def alSet {α : Type} : List (String × α) → String → α → List (String × α)
  | [], k, v => [(k, v)]
  | (k', v') :: rest, k, v =>
    if k' = k then (k, v) :: rest else (k', v') :: alSet rest k v

/-! ### Processor state and configuration -/

/-- The mutable state of a `MessageProcessor` constructed with
`plugins=None`.  `ticks` counts the calls made to the injected
`time_function`; the clock itself is passed to the operations as a
function `ℕ → ℚ` from call index to returned time.  A meter accumulator
(`MeterMetricReporter`, whose source is not part of this tree) is
represented by the list of its marked values. -/
structure ProcState where
  timer_metrics : List (String × List ℚ) := []
  counter_metrics : List (String × ℚ) := []
  gauge_metrics : List (String × ℚ) := []
  meter_metrics : List (String × List ℚ) := []
  process_timings : List (String × ℚ) := []
  by_type : List (String × ℕ) := []
  ticks : ℕ := 0
deriving DecidableEq, Repr

/-- The freshly constructed processor. -/
def initState : ProcState := {}

/-- The clock always reading 0; used to drive concrete runs. -/
def zclock : ℕ → ℚ := fun _ => 0

/-- The constructor flags of `MessageProcessor.__init__`, with the same
defaults (`legacy_namespace=1`, `message_prefix="stats"`,
`delete_idle_counters=0`, `lightweight_mode=0`). -/
structure Config where
  legacy_namespace : Bool := true
  message_prefix : String := "stats"
  internal_metrics_prefix : String := "statsd."
  delete_idle_counters : Bool := false
  lightweight_mode : Bool := false
deriving DecidableEq, Repr

/-- `self.stats_prefix` after `__init__`. -/
def Config.stats_prefix (c : Config) : String :=
  if c.legacy_namespace then "stats." else c.message_prefix ++ "."

/-- `self.count_prefix` after `__init__`. -/
def Config.count_prefix (c : Config) : String :=
  if c.legacy_namespace then "stats_counts." else c.stats_prefix ++ "counters."

/-- `self.timer_prefix` after `__init__`: in both regimes it is
`stats_prefix + "timers."`. -/
def Config.timer_prefix (c : Config) : String := c.stats_prefix ++ "timers."

/-- `self.gauge_prefix` after `__init__` (note the legacy spelling
`gauge` versus the configurable `gauges`). -/
def Config.gauge_prefix (c : Config) : String :=
  if c.legacy_namespace then "stats.gauge." else c.stats_prefix ++ "gauges."

/-! ### Ingest path (`BaseMessageProcessor.process` and the per-type handlers) -/

/-- `compose_timer_metric`: lazily create the per-key sample list and append. -/
def compose_timer_metric (st : ProcState) (key : String) (d : ℚ) : ProcState :=
  { st with
    timer_metrics :=
      alSet st.timer_metrics key (((alGet st.timer_metrics key).getD []) ++ [d]) }

/-- `process_timer_metric`: parse the duration; on `ValueError` log and drop
(`return self.fail(message)` — the state is unchanged since `fail` only logs). -/
def process_timer_metric (st : ProcState) (key duration : String) : ProcState :=
  match parseFloat duration with
  | none => st
  | some d => compose_timer_metric st key d

/-- `compose_counter_metric`: ensure the key exists at 0, then
`self.counter_metrics[key] += value * (1 / float(rate))`.  `rate` is the
Python value held by the local `rate`: `none` models the integer default
`1`, `some s` the string captured by the `RATE` regex.  `float(rate)` on an
unparsable string raises `ValueError`; a zero rate raises
`ZeroDivisionError`; only `KeyError` is caught by the source's `try`. -/
def compose_counter_metric (st : ProcState) (key : String) (value : ℚ)
    (rate : Option String) : Except PyErr ProcState :=
  let st1 := if (alGet st.counter_metrics key).isSome then st
             else { st with counter_metrics := alSet st.counter_metrics key 0 }
  match (match rate with | none => some (1 : ℚ) | some s => parseFloat s) with
  | none => .error .valueError
  | some r =>
    if r = 0 then .error .zeroDivisionError
    else .ok { st1 with
      counter_metrics :=
        alSet st1.counter_metrics key
          (((alGet st1.counter_metrics key).getD 0) + value * (1 / r)) }

/-- `process_counter_metric`: parse `composite[0]` as the value (log and
drop on failure); with three fields, match the third against `RATE` (log
and drop when it does not match) and pass the captured group as the rate. -/
def process_counter_metric (st : ProcState) (key : String) (fields : List String) :
    Except PyErr ProcState :=
  match parseFloat (fields.getD 0 "") with
  | none => .ok st
  | some v =>
    if fields.length = 3 then
      match rateMatch (fields.getD 2 "") with
      | none => .ok st
      | some rs => compose_counter_metric st key v (some rs)
    else compose_counter_metric st key v none

/-- `compose_gauge_metric`: overwrite the per-key gauge value. -/
def compose_gauge_metric (st : ProcState) (key : String) (v : ℚ) : ProcState :=
  { st with gauge_metrics := alSet st.gauge_metrics key v }

/-- `process_gauge_metric`: split the composite on `:` and reject
non-singleton splits.  When `float(values[0])` raises, the handler calls
`self.fail(message)` WITHOUT returning, then falls through to
`self.compose_gauge_metric(key, value)` with the local `value` never
assigned — CPython raises `UnboundLocalError`, which propagates to the
caller. -/
def process_gauge_metric (st : ProcState) (key composite : String) :
    Except PyErr ProcState :=
  let values := pySplit ':' composite
  if values.length ≠ 1 then .ok st
  else
    match parseFloat (values.getD 0 "") with
    | none => .error .unboundLocal
    | some v => .ok (compose_gauge_metric st key v)

/-- `compose_meter_metric`.  `Modelled from the spec:` the meter
accumulator is a `MeterMetricReporter` (file `metermetric.py`, not in this
tree); per spec §4.4 `mark(value)` records the mark, so the model keeps the
list of marked values per key, created lazily. -/
def compose_meter_metric (st : ProcState) (key : String) (v : ℚ) : ProcState :=
  { st with
    meter_metrics :=
      alSet st.meter_metrics key (((alGet st.meter_metrics key).getD []) ++ [v]) }

/-- `process_meter_metric`: same shape as the gauge handler, including the
missing `return` before the fall-through into `compose_meter_metric`. -/
def process_meter_metric (st : ProcState) (key composite : String) :
    Except PyErr ProcState :=
  let values := pySplit ':' composite
  if values.length ≠ 1 then .ok st
  else
    match parseFloat (values.getD 0 "") with
    | none => .error .unboundLocal
    | some v => .ok (compose_meter_metric st key v)

/-- The four built-in wire-type tokens. -/
def knownType (t : String) : Bool := t = "c" || t = "ms" || t = "g" || t = "m"

/-- `process_message`: read the clock, dispatch on the type token (the
plugin table is empty, so an unknown token takes the `fail` branch and
returns before the self-metric updates), then read the clock again and
update `process_timings[t]` (via `setdefault(t, 0)` then `+=`) and
`by_type[t]` likewise. -/
def process_message (clock : ℕ → ℚ) (st0 : ProcState) (metric_type key : String)
    (fields : List String) : Except PyErr ProcState :=
  let start := clock st0.ticks
  let st := { st0 with ticks := st0.ticks + 1 }
  let dispatched : Option (Except PyErr ProcState) :=
    if metric_type = "c" then some (process_counter_metric st key fields)
    else if metric_type = "ms" then some (.ok (process_timer_metric st key (fields.getD 0 "")))
    else if metric_type = "g" then some (process_gauge_metric st key (fields.getD 0 ""))
    else if metric_type = "m" then some (process_meter_metric st key (fields.getD 0 ""))
    else none
  match dispatched with
  | none => .ok st
  | some (.error e) => .error e
  | some (.ok st2) =>
    let stop := clock st2.ticks
    let st3 := { st2 with ticks := st2.ticks + 1 }
    let st4 := { st3 with
      process_timings :=
        alSet st3.process_timings metric_type
          (((alGet st3.process_timings metric_type).getD 0) + (stop - start)) }
    .ok { st4 with
      by_type :=
        alSet st4.by_type metric_type (((alGet st4.by_type metric_type).getD 0) + 1) }

/-- `BaseMessageProcessor.process`: reject when `":"` is absent from the raw
message; split the stripped message at the first `":"`; reject when `"|"`
is absent from the payload; split the payload on `"|"` and reject field
counts outside 2..3; normalize the key and dispatch. -/
def process (clock : ℕ → ℚ) (st : ProcState) (message : String) :
    Except PyErr ProcState :=
  if !hasChar ':' message then .ok st
  else
    let kd := splitFirst ':' (pyStrip message)
    if !hasChar '|' kd.2 then .ok st
    else
      let fields := pySplit '|' kd.2
      if fields.length < 2 || fields.length > 3 then .ok st
      else process_message clock st (fields.getD 1 "") (normalize_key kd.1) fields

/-- Run a list of messages through `process`, left to right. -/
def runMessages (clock : ℕ → ℚ) : ProcState → List String → Except PyErr ProcState
  | st, [] => .ok st
  | st, msg :: rest =>
    match process clock st msg with
    | .error e => .error e
    | .ok st' => runMessages clock st' rest

/-! ### Flush path -/

/-- Python 2 `round`: round half away from zero (composed with `int(...)`
at the call site, so the model returns `ℤ` directly). -/
def pyRound (x : ℚ) : ℤ := if 0 ≤ x then ⌊x + 1 / 2⌋ else ⌈x - 1 / 2⌉

/-- Python `l[:i]` for a possibly negative `i`. -/
def pySliceTo {α : Type} (i : ℤ) (l : List α) : List α :=
  if 0 ≤ i then l.take i.toNat else l.take ((l.length : ℤ) + i).toNat

/-- `list.sort()` on floats: stable ascending insertion sort. -/
def insertQ (x : ℚ) : List ℚ → List ℚ
  | [] => [x]
  | y :: ys => if x ≤ y then x :: y :: ys else y :: insertQ x ys

/-- Ascending sort of a sample list. -/
def sortQ : List ℚ → List ℚ
  | [] => []
  | x :: xs => insertQ x (sortQ xs)

/-- Python string `≤` (byte-lexicographic on ASCII keys). -/
def strLeb (a b : String) : Bool := !(decide (b < a))

/-- Insertion step for `sorted` over sample tuples (metric names are
pairwise distinct at every call site, so comparing first components
matches Python's lexicographic tuple order). -/
def insertLine (x : Line) : List Line → List Line
  | [] => [x]
  | y :: ys => if strLeb x.1 y.1 then x :: y :: ys else y :: insertLine x ys

/-- Python `sorted` over sample tuples. -/
def sortLines : List Line → List Line
  | [] => []
  | x :: xs => insertLine x (sortLines xs)

/-- The trim index of `flush_timer_metrics`:
`count - int(round(((100 - percent) / 100.0) * count))`. -/
def trimIndex (percent : ℤ) (count : ℕ) : ℤ :=
  (count : ℤ) - pyRound (((100 - percent : ℤ) : ℚ) / 100 * count)

/-- The `items` dictionary of `flush_timer_metrics` rendered as
`sorted((timer_prefix + key + item, value, timestamp) ...)`; the `.count`
entry is added unless lightweight mode is on. -/
def timerLines (cfg : Config) (percent : ℤ) (ts : ℤ) (key : String)
    (mean upper thresholdUpper lower : ℚ) (count : ℕ) : List Line :=
  let items : List (String × ℚ) :=
    [(".mean", mean), (".upper", upper),
     (".upper_" ++ toString percent, thresholdUpper), (".lower", lower)]
  let items := if cfg.lightweight_mode then items else items ++ [(".count", (count : ℚ))]
  sortLines (items.map fun it => (cfg.timer_prefix ++ key ++ it.1, it.2, ts))

/-- The loop body of `flush_timer_metrics` for one key: `none` when the
pending list is empty (nothing yielded); otherwise sort, take the extremes,
and for more than one sample trim to `timers[:index]` (whose last element
raises `IndexError` when the slice is empty) and average the kept prefix. -/
def flushTimerEntry (cfg : Config) (percent : ℤ) (ts : ℤ) (key : String)
    (timers : List ℚ) : Except PyErr (Option (List Line)) :=
  if timers.length = 0 then .ok none
  else
    let sorted := sortQ timers
    let lower := sorted.getD 0 0
    let upper := sorted.getD (sorted.length - 1) 0
    let count := sorted.length
    if count > 1 then
      let index := trimIndex percent count
      let trimmed := pySliceTo index sorted
      match trimmed.getLast? with
      | none => .error .indexError
      | some thresholdUpper =>
        let mean := trimmed.sum / (index : ℚ)
        .ok (some (timerLines cfg percent ts key mean upper thresholdUpper lower count))
    else .ok (some (timerLines cfg percent ts key lower upper upper lower count))

/-- `flush_timer_metrics`: yield one sorted block per key with pending
samples and reset that key's list to `[]`.  Returns the yielded blocks and
the timer map after the flush. -/
def flush_timer_metrics (cfg : Config) (percent : ℤ) (ts : ℤ) :
    List (String × List ℚ) → Except PyErr (List (List Line) × List (String × List ℚ))
  | [] => .ok ([], [])
  | (k, tl) :: rest =>
    match flushTimerEntry cfg percent ts k tl with
    | .error e => .error e
    | .ok none =>
      match flush_timer_metrics cfg percent ts rest with
      | .error e => .error e
      | .ok (gs, rest') => .ok (gs, (k, tl) :: rest')
    | .ok (some g) =>
      match flush_timer_metrics cfg percent ts rest with
      | .error e => .error e
      | .ok (gs, rest') => .ok (g :: gs, (k, []) :: rest')

/-- The loop body of `flush_counter_metrics` for one key: the rate/count
pair in the configured namespace, restricted to `output[1:2]` (the count
line alone) in lightweight mode. -/
def flushCounterEntry (cfg : Config) (interval : ℚ) (ts : ℤ) (key : String)
    (count : ℚ) : List Line :=
  let value := count / interval
  let output : List Line :=
    if !cfg.legacy_namespace then
      [(cfg.count_prefix ++ key ++ ".rate", value, ts),
       (cfg.count_prefix ++ key ++ ".count", count, ts)]
    else
      [(cfg.stats_prefix ++ key, value, ts),
       (cfg.count_prefix ++ key, count, ts)]
  if cfg.lightweight_mode then output.drop 1 else output

/-- `flush_counter_metrics`: every entry is reset to 0 as it is yielded
(`count / interval` raises `ZeroDivisionError` on a zero interval as soon
as a key exists); after the loop, the whole map is dropped when the
delete-idle-counters policy is on.  Returns the yielded blocks and the
counter map after the flush. -/
def flush_counter_metrics (cfg : Config) (interval : ℚ) (ts : ℤ)
    (m : List (String × ℚ)) : Except PyErr (List (List Line) × List (String × ℚ)) :=
  if interval = 0 ∧ m ≠ [] then .error .zeroDivisionError
  else
    let groups := m.map fun kv => flushCounterEntry cfg interval ts kv.1 kv.2
    let zeroed := m.map fun kv => (kv.1, (0 : ℚ))
    .ok (groups, if cfg.delete_idle_counters then [] else zeroed)

/-- `flush_gauge_metrics`: one single-line block per gauge; the map is not
modified. -/
def flush_gauge_metrics (cfg : Config) (ts : ℤ) (m : List (String × ℚ)) :
    List (List Line) :=
  m.map fun kv => [(cfg.gauge_prefix ++ kv.1 ++ ".value", kv.2, ts)]

/-! ### Helper lemmas -/

theorem alGet_alSet_self {α : Type} (m : List (String × α)) (k : String) (v : α) :
    alGet (alSet m k v) k = some v := by
  induction m with
  | nil => simp [alSet, alGet]
  | cons kv rest ih =>
    obtain ⟨k', v'⟩ := kv
    by_cases h : k' = k
    · simp [alSet, alGet, h]
    · simp [alSet, alGet, h, ih]

theorem alSet_alSet_self {α : Type} (m : List (String × α)) (k : String) (v w : α) :
    alSet (alSet m k v) k w = alSet m k w := by
  induction m with
  | nil => simp [alSet]
  | cons kv rest ih =>
    obtain ⟨k', v'⟩ := kv
    by_cases h : k' = k
    · simp [alSet, h]
    · simp [alSet, h, ih]

/-- Net effect of `compose_counter_metric` when the rate converts to a
nonzero float: the ensure-at-0 step followed by `+=` collapses to a single
update of the original map, reading an absent entry as 0. -/
theorem compose_counter_metric_ok (st : ProcState) (k : String) (v r : ℚ)
    (rate : Option String)
    (hr : (match rate with | none => some (1 : ℚ) | some s => parseFloat s) = some r)
    (h0 : r ≠ 0) :
    compose_counter_metric st k v rate =
      .ok { st with
        counter_metrics :=
          alSet st.counter_metrics k
            (((alGet st.counter_metrics k).getD 0) + v * (1 / r)) } := by
  unfold compose_counter_metric
  rw [hr]
  rcases hh : alGet st.counter_metrics k with _ | w
  · simp [hh, h0, alGet_alSet_self, alSet_alSet_self]
  · simp [hh, h0]

theorem insertQ_length (x : ℚ) (l : List ℚ) : (insertQ x l).length = l.length + 1 := by
  induction l with
  | nil => simp [insertQ]
  | cons y ys ih =>
    by_cases h : x ≤ y
    · simp [insertQ, h]
    · simp [insertQ, h, ih]

theorem sortQ_length (l : List ℚ) : (sortQ l).length = l.length := by
  induction l with
  | nil => rfl
  | cons x xs ih => simp [sortQ, insertQ_length, ih]

theorem take_getLast?_eq (l : List ℚ) (n : ℕ) (h1 : 1 ≤ n) (h2 : n ≤ l.length) :
    (l.take n).getLast? = some (l.getD (n - 1) 0) := by
  have hlen : (l.take n).length = n := by simp [List.length_take, Nat.min_eq_left h2]
  rw [List.getLast?_eq_getElem?, hlen, List.getElem?_take, if_pos (by omega : n - 1 < n)]
  rw [List.getD_eq_getElem?_getD, List.getElem?_eq_getElem (by omega : n - 1 < l.length)]
  rfl

theorem pyRound_nonneg (x : ℚ) (h : 0 ≤ x) : 0 ≤ pyRound x := by
  unfold pyRound
  rw [if_pos h]
  exact Int.le_floor.mpr (by push_cast; linarith)

/-- For a percentile threshold in `[0, 100]`, the trim index never exceeds
the sample count. -/
theorem trimIndex_le_count (percent : ℤ) (count : ℕ) (hp1 : percent ≤ 100) :
    trimIndex percent count ≤ (count : ℤ) := by
  unfold trimIndex
  have h0 : 0 ≤ pyRound (((100 - percent : ℤ) : ℚ) / 100 * count) := by
    apply pyRound_nonneg
    apply mul_nonneg
    · apply div_nonneg _ (by norm_num)
      have hq : (percent : ℚ) ≤ 100 := by exact_mod_cast hp1
      push_cast
      linarith
    · exact Nat.cast_nonneg count
  omega

/-! ### Claims -/

/-- C1: for every flush of a timer key whose pending sample list `s` is
non-empty, with percentile threshold `P ≤ 100` such that the trim index
`idx = count − round(((100−P)/100)·count)` is at least 1 (so the claim's
`sum(s[0:idx])/idx` is well defined; at `P = 90` this holds for every
non-empty `s`), the emitted statistics are computed from the ascending
sort of `s` as `lower = sorted[0]`, `upper = sorted[count−1]`,
`count = len s`, `mean = sum(sorted[0:idx])/idx`,
`upper_P = sorted[idx−1]`. -/
theorem C1_timer_flush_trimmed_stats (cfg : Config) (percent ts : ℤ) (key : String)
    (s : List ℚ) (hne : s ≠ []) (hp1 : percent ≤ 100)
    (hidx : 1 ≤ trimIndex percent s.length) :
    flushTimerEntry cfg percent ts key s =
      .ok (some (timerLines cfg percent ts key
        (((sortQ s).take (trimIndex percent s.length).toNat).sum /
          ((trimIndex percent s.length : ℤ) : ℚ))
        ((sortQ s).getD (s.length - 1) 0)
        ((sortQ s).getD ((trimIndex percent s.length).toNat - 1) 0)
        ((sortQ s).getD 0 0)
        s.length)) := by
  have hlen : (sortQ s).length = s.length := sortQ_length s
  have hslen : ¬ s.length = 0 := by
    intro h
    exact hne (List.length_eq_zero.mp h)
  have hIle : trimIndex percent s.length ≤ (s.length : ℤ) :=
    trimIndex_le_count percent s.length hp1
  by_cases hc : 1 < s.length
  · have h0I : 0 ≤ trimIndex percent s.length := by omega
    have hsl : pySliceTo (trimIndex percent s.length) (sortQ s) =
        (sortQ s).take (trimIndex percent s.length).toNat := by
      unfold pySliceTo
      rw [if_pos h0I]
    have hlast : ((sortQ s).take (trimIndex percent s.length).toNat).getLast? =
        some ((sortQ s).getD ((trimIndex percent s.length).toNat - 1) 0) :=
      take_getLast?_eq _ _ (by omega) (by rw [hlen]; omega)
    simp only [flushTimerEntry, hlen, if_neg hslen, if_pos hc, hsl, hlast]
  · have h1 : s.length = 1 := by
      have := List.length_pos.mpr hne
      omega
    have hI1 : trimIndex percent s.length = 1 := by omega
    rw [h1] at hI1
    obtain ⟨a, ha⟩ := List.length_eq_one.mp (hlen.trans h1)
    simp only [flushTimerEntry, hlen, if_neg hslen, h1, ha, hI1]
    norm_num [List.getD]

/-- The sample list `[0, 1, …, n−1]` as rationals. -/
def qRange (n : ℕ) : List ℚ := (List.range n).map (fun i : ℕ => (i : ℚ))

instance : DecidableEq (List (List Line) × List (String × List ℚ)) :=
  @instDecidableEqProd _ _ inferInstance inferInstance

instance : DecidableEq (List (List Line) × List (String × ℚ)) :=
  @instDecidableEqProd _ _ inferInstance inferInstance

set_option maxRecDepth 20000 in
/-- C1 witness: the claim's own instance, `P = 90` over samples
`[0, 1, …, 99]`: `idx = 90`, `mean = 44.5`, `upper_90 = 89`, `upper = 99`,
`lower = 0`, `count = 100`. -/
theorem C1_timer_flush_trimmed_stats_witness :
    (qRange 100 ≠ [] ∧ (90 : ℤ) ≤ 100 ∧ 1 ≤ trimIndex 90 (qRange 100).length) ∧
    flushTimerEntry {} 90 1000 "t" (qRange 100) =
      .ok (some [("stats.timers.t.count", 100, 1000),
                 ("stats.timers.t.lower", 0, 1000),
                 ("stats.timers.t.mean", 89 / 2, 1000),
                 ("stats.timers.t.upper", 99, 1000),
                 ("stats.timers.t.upper_90", 89, 1000)]) := by
  refine ⟨⟨by decide, by decide, by with_unfolding_all decide⟩, ?_⟩
  exact (C1_timer_flush_trimmed_stats {} 90 1000 "t" (qRange 100)
    (by decide) (by decide) (by with_unfolding_all decide)).trans
    (by with_unfolding_all decide)

/-- The eight C2 ingest messages. -/
def c2Msgs : List String :=
  ["orders:250|ms", "orders:250|ms", "orders:250|ms", "orders:250|ms",
   "orders:750|ms", "orders:750|ms", "orders:750|ms", "orders:750|ms"]

/-- The C2 scenario: ingest the eight messages into a fresh default
(legacy-namespace) processor, then run the timer flush with `P = 90` at
timestamp 1000. -/
def c2Flush : Except PyErr (List (List Line) × List (String × List ℚ)) :=
  match runMessages zclock initState c2Msgs with
  | .error e => .error e
  | .ok st => flush_timer_metrics {} 90 1000 st.timer_metrics

theorem c2_run :
    runMessages zclock initState c2Msgs =
      .ok { timer_metrics := [("orders", [250, 250, 250, 250, 750, 750, 750, 750])],
            process_timings := [("ms", 0)], by_type := [("ms", 8)], ticks := 16 } := by
  with_unfolding_all rfl

theorem c2_flush_timers :
    flush_timer_metrics {} 90 1000 [("orders", [250, 250, 250, 250, 750, 750, 750, 750])] =
      .ok ([[("stats.timers.orders.count", 8, 1000),
             ("stats.timers.orders.lower", 250, 1000),
             ("stats.timers.orders.mean", 3250 / 7, 1000),
             ("stats.timers.orders.upper", 750, 1000),
             ("stats.timers.orders.upper_90", 750, 1000)]],
            [("orders", [])]) := by
  with_unfolding_all rfl

theorem c2_flush_eq :
    c2Flush =
      .ok ([[("stats.timers.orders.count", 8, 1000),
             ("stats.timers.orders.lower", 250, 1000),
             ("stats.timers.orders.mean", 3250 / 7, 1000),
             ("stats.timers.orders.upper", 750, 1000),
             ("stats.timers.orders.upper_90", 750, 1000)]],
            [("orders", [])]) := by
  unfold c2Flush
  rw [c2_run]
  exact c2_flush_timers

/-- C2 counterexample: the C2 scenario's flush succeeds, but no emitted
block contains the claimed line `stats.timers.orders.mean = 437.5` (the
code trims to `idx = 7` samples and emits `3250/7 ≈ 464.29`, not the
untrimmed mean `437.5`). -/
theorem C2_counterexample :
    Except.map
      (fun out => out.1.any
        (fun g => g.contains ("stats.timers.orders.mean", (875 : ℚ) / 2, (1000 : ℤ))))
      c2Flush = .ok false := by
  rw [c2_flush_eq]
  with_unfolding_all decide

/-- C2 amended: the flush at `ts = 1000`, `P = 90` over the eight ingested
samples emits, in one name-sorted block, `count = 8`, `lower = 250`,
`mean = 3250/7` (the trimmed mean `(250·4 + 750·3)/7`, not `437.5`),
`upper = 750`, `upper_90 = 750`, every line stamped 1000, and resets the
pending list. -/
theorem C2_timer_flush_scenario :
    c2Flush =
      .ok ([[("stats.timers.orders.count", 8, 1000),
             ("stats.timers.orders.lower", 250, 1000),
             ("stats.timers.orders.mean", 3250 / 7, 1000),
             ("stats.timers.orders.upper", 750, 1000),
             ("stats.timers.orders.upper_90", 750, 1000)]],
            [("orders", [])]) := c2_flush_eq
/-- C3: an accepted counter message `key:v|c` (optionally with a third
field matching `^@(rate)`, the rate defaulting to 1) adds `v·(1/rate)` to
`counter_metrics[key]`, creating the entry at 0 when absent; and a flush
with interval `I` milliseconds (Python 2 integer division `I/1000` being
nonzero) emits, per key in the legacy namespace, the pair
`(stats.<key>, total/(I/1000), ts)` and `(stats_counts.<key>, total, ts)`
where `total` is the accumulated sum at flush time. -/
theorem C3_counter_accumulate_and_flush (st : ProcState) (key vs rs g : String)
    (v r : ℚ) (hv : parseFloat vs = some v) (hg : rateMatch rs = some g)
    (hgr : parseFloat g = some r) (hr0 : r ≠ 0) :
    (process_counter_metric st key [vs, "c"] =
      .ok { st with
        counter_metrics :=
          alSet st.counter_metrics key
            (((alGet st.counter_metrics key).getD 0) + v * (1 / 1)) }) ∧
    (process_counter_metric st key [vs, "c", rs] =
      .ok { st with
        counter_metrics :=
          alSet st.counter_metrics key
            (((alGet st.counter_metrics key).getD 0) + v * (1 / r)) }) ∧
    (∀ (I : ℕ) (ts : ℤ) (m : List (String × ℚ)), ((I / 1000 : ℕ) : ℚ) ≠ 0 →
      flush_counter_metrics {} ((I / 1000 : ℕ) : ℚ) ts m =
        .ok (m.map (fun kv =>
              [("stats." ++ kv.1, kv.2 / ((I / 1000 : ℕ) : ℚ), ts),
               ("stats_counts." ++ kv.1, kv.2, ts)]),
             m.map (fun kv => (kv.1, 0)))) := by
  refine ⟨?_, ?_, ?_⟩
  · have h := compose_counter_metric_ok st key v 1 none rfl one_ne_zero
    simp only [process_counter_metric, List.getD_cons_zero, hv]
    rw [if_neg (by norm_num)]
    exact h
  · have h := compose_counter_metric_ok st key v r (some g) hgr hr0
    simp only [process_counter_metric, List.getD_cons_zero, hv]
    rw [if_pos (by norm_num)]
    simp only [List.getD_cons_succ, List.getD_cons_zero, hg]
    exact h
  · intro I ts m hI
    unfold flush_counter_metrics
    rw [if_neg (by rintro ⟨h0, _⟩; exact hI h0)]
    simp only [flushCounterEntry, Config.stats_prefix, Config.count_prefix]
    norm_num

/-- C3 witness: `"k:3|c"` fields with rate `@0.5` contribute `6` to key
`k` of an empty map, and a flush at interval 10000 ms over `[("a", 10)]`
emits `stats.a = 1` and `stats_counts.a = 10`. -/
theorem C3_counter_accumulate_and_flush_witness :
    (parseFloat "3" = some 3 ∧ rateMatch "@0.5" = some "0.5" ∧
      parseFloat "0.5" = some (1 / 2) ∧ ((1 : ℚ) / 2 ≠ 0) ∧
      ((10000 / 1000 : ℕ) : ℚ) ≠ 0) ∧
    process_counter_metric initState "k" ["3", "c", "@0.5"] =
      .ok { initState with counter_metrics := [("k", 6)] } ∧
    flush_counter_metrics {} ((10000 / 1000 : ℕ) : ℚ) 77 [("a", 10)] =
      .ok ([[("stats.a", 1, 77), ("stats_counts.a", 10, 77)]], [("a", 0)]) := by
  have h := C3_counter_accumulate_and_flush initState "k" "3" "@0.5" "0.5" 3 (1 / 2)
    (by with_unfolding_all decide) (by decide) (by with_unfolding_all decide)
    (by with_unfolding_all decide)
  refine ⟨⟨by with_unfolding_all decide, by decide, by with_unfolding_all decide,
    by with_unfolding_all decide, by with_unfolding_all decide⟩, ?_, ?_⟩
  · exact h.2.1.trans (by with_unfolding_all decide)
  · exact (h.2.2 10000 77 [("a", 10)] (by with_unfolding_all decide)).trans
      (by with_unfolding_all decide)

/-- C4: after any completed counter flush, every entry remaining in the
counter map has value 0; when the delete-idle-counters policy is enabled
the counter map is instead empty. -/
theorem C4_counters_zero_after_flush (cfg : Config) (interval : ℚ) (ts : ℤ)
    (m m' : List (String × ℚ)) (gs : List (List Line))
    (h : flush_counter_metrics cfg interval ts m = .ok (gs, m')) :
    (∀ kv ∈ m', kv.2 = 0) ∧ (cfg.delete_idle_counters = true → m' = []) := by
  unfold flush_counter_metrics at h
  split at h
  · exact absurd h (by simp)
  · simp only [Except.ok.injEq, Prod.mk.injEq] at h
    obtain ⟨hgs, hm'⟩ := h
    subst hm'
    by_cases hd : cfg.delete_idle_counters = true
    · simp [hd]
    · simp only [Bool.not_eq_true] at hd
      refine ⟨?_, by simp [hd]⟩
      intro kv hkv
      rw [if_neg (by simp [hd])] at hkv
      obtain ⟨a, _, rfl⟩ := List.mem_map.mp hkv
      rfl

/-- C4 witness: a concrete flush over a single counter `a = 5` at interval
10 leaves the map at `[("a", 0)]`, all zeros. -/
theorem C4_counters_zero_after_flush_witness :
    (flush_counter_metrics {} 10 3 [("a", 5)] =
      .ok ([[("stats.a", 1 / 2, 3), ("stats_counts.a", 5, 3)]], [("a", 0)])) ∧
    (∀ kv ∈ [(("a" : String), (0 : ℚ))], kv.2 = 0) ∧
    (({} : Config).delete_idle_counters = true → [(("a" : String), (0 : ℚ))] = []) := by
  have hflush : flush_counter_metrics {} 10 3 [("a", 5)] =
      .ok ([[("stats.a", 1 / 2, 3), ("stats_counts.a", 5, 3)]], [("a", 0)]) := by
    with_unfolding_all decide
  have h := C4_counters_zero_after_flush {} 10 3 [("a", 5)] [("a", 0)]
    [[("stats.a", 1 / 2, 3), ("stats_counts.a", 5, 3)]] hflush
  exact ⟨hflush, h.1, h.2⟩

/-- The four accumulator maps of the spec's data model (the self-metric
maps `by_type`/`process_timings` are not accumulators). -/
def accums (st : ProcState) :
    List (String × ℚ) × List (String × List ℚ) × List (String × ℚ) ×
      List (String × List ℚ) :=
  (st.counter_metrics, st.timer_metrics, st.gauge_metrics, st.meter_metrics)

/-- C5: from any processor state, `"foo:1|c"` is accepted and adds 1 to
counter key `foo`, touching no other accumulator map; `"foo1|c"` (no
colon), `"foo:1"` (no pipe) and `"foo:1|c|extra|more"` (four fields) are
rejected with the state completely unchanged; `"foo:|c"` (empty value
field) is rejected leaving every accumulator map unchanged. -/
theorem C5_parser_accept_reject (clock : ℕ → ℚ) (st : ProcState) :
    (Except.map accums (process clock st "foo:1|c") =
      .ok (alSet st.counter_metrics "foo"
             (((alGet st.counter_metrics "foo").getD 0) + 1),
           st.timer_metrics, st.gauge_metrics, st.meter_metrics)) ∧
    process clock st "foo1|c" = .ok st ∧
    process clock st "foo:1" = .ok st ∧
    process clock st "foo:1|c|extra|more" = .ok st ∧
    Except.map accums (process clock st "foo:|c") = .ok (accums st) := by
  refine ⟨?_, ?_, ?_, ?_, ?_⟩
  · have e2 : splitFirst ':' (pyStrip "foo:1|c") = ("foo", "1|c") := by decide
    have e4 : pySplit '|' "1|c" = ["1", "c"] := by with_unfolding_all decide
    have e5 : normalize_key "foo" = "foo" := by decide
    have e6 : parseFloat "1" = some 1 := by with_unfolding_all decide
    have hc := compose_counter_metric_ok { st with ticks := st.ticks + 1 } "foo"
      1 1 none rfl one_ne_zero
    have hpc : process_counter_metric { st with ticks := st.ticks + 1 } "foo" ["1", "c"] =
        .ok { st with
          ticks := st.ticks + 1
          counter_metrics :=
            alSet st.counter_metrics "foo"
              (((alGet st.counter_metrics "foo").getD 0) + 1) } := by
      simp only [process_counter_metric, List.getD_cons_zero, e6]
      rw [if_neg (by norm_num)]
      exact hc.trans (by norm_num)
    simp [process, hasChar, e2, e4, e5, process_message, hpc, accums, Except.map]
  · simp [process, hasChar]
  · have e2 : splitFirst ':' (pyStrip "foo:1") = ("foo", "1") := by decide
    have e3 : hasChar '|' "1" = false := by decide
    simp [process, e2, e3, (by decide : hasChar ':' "foo:1" = true)]
  · have e2 : splitFirst ':' (pyStrip "foo:1|c|extra|more") = ("foo", "1|c|extra|more") := by
      decide
    have e4 : pySplit '|' "1|c|extra|more" = ["1", "c", "extra", "more"] := by
      with_unfolding_all decide
    simp [process, hasChar, e2, e4]
  · have e2 : splitFirst ':' (pyStrip "foo:|c") = ("foo", "|c") := by decide
    have e4 : pySplit '|' "|c" = ["", "c"] := by with_unfolding_all decide
    have e5 : normalize_key "foo" = "foo" := by decide
    have e6 : parseFloat "" = none := by decide
    have hpc : process_counter_metric { st with ticks := st.ticks + 1 } "foo" ["", "c"] =
        .ok { st with ticks := st.ticks + 1 } := by
      simp only [process_counter_metric, List.getD_cons_zero, e6]
    simp [process, hasChar, e2, e4, e5, process_message, hpc, accums, Except.map]

/-- C6 counterexample: `"foo:abc|ms"` is malformed (unparsable numeric
value) and is dropped — no timer entry is created — yet `by_type["ms"]`
is incremented from absent to 1 and a `process_timings["ms"]` entry is
created, because `process_message` runs the self-metric updates after the
dispatched handler returns, whether or not it failed. -/
theorem C6_counterexample :
    alGet initState.by_type "ms" = none ∧
    alGet initState.process_timings "ms" = none ∧
    Except.map
      (fun st => (alGet st.by_type "ms", (alGet st.process_timings "ms").isSome,
                  alGet st.timer_metrics "foo"))
      (process zclock initState "foo:abc|ms") = .ok (some 1, true, none) := by
  refine ⟨rfl, rfl, ?_⟩
  with_unfolding_all decide

/-- C6 amended: a malformed message rejected before type dispatch — bad
separator, bad field count, or unknown type token — causes no state change
at all, so in particular no self-metric increment; a message with a known
type token whose numeric value fails to parse is dropped but (for counter
and timer) still increments `by_type` and `process_timings` for that
type. -/
theorem C6_early_reject_no_self_metric (clock : ℕ → ℚ) (st : ProcState) :
    (∀ msg : String, hasChar ':' msg = false → process clock st msg = .ok st) ∧
    (∀ msg : String, hasChar '|' (splitFirst ':' (pyStrip msg)).2 = false →
      process clock st msg = .ok st) ∧
    (∀ msg : String,
      ((pySplit '|' (splitFirst ':' (pyStrip msg)).2).length < 2 ∨
        (pySplit '|' (splitFirst ':' (pyStrip msg)).2).length > 3) →
      process clock st msg = .ok st) ∧
    (∀ metric_type key : String, ∀ fields : List String,
      knownType metric_type = false →
      Except.map (fun s => (s.by_type, s.process_timings))
        (process_message clock st metric_type key fields) =
        .ok (st.by_type, st.process_timings)) := by
  refine ⟨?_, ?_, ?_, ?_⟩
  · intro msg h
    simp [process, h]
  · intro msg h
    by_cases hc : hasChar ':' msg <;> simp [process, hc, h]
  · intro msg h
    by_cases hc : hasChar ':' msg
    · by_cases hp : hasChar '|' (splitFirst ':' (pyStrip msg)).2
      · rcases h with h | h <;> simp [process, hc, hp, h]
      · simp [process, hc, hp]
    · simp [process, hc]
  · intro metric_type key fields hk
    simp only [knownType, Bool.or_eq_false_iff, decide_eq_false_iff_not] at hk
    obtain ⟨⟨⟨h1, h2⟩, h3⟩, h4⟩ := hk
    simp [process_message, h1, h2, h3, h4, Except.map]

/-- C6 witness: concrete instances for the four rejection categories. -/
theorem C6_early_reject_no_self_metric_witness :
    (hasChar ':' "foo1|c" = false ∧
      process zclock initState "foo1|c" = .ok initState) ∧
    (hasChar '|' (splitFirst ':' (pyStrip "foo:1")).2 = false ∧
      process zclock initState "foo:1" = .ok initState) ∧
    ((pySplit '|' (splitFirst ':' (pyStrip "foo:1|c|extra|more")).2).length > 3 ∧
      process zclock initState "foo:1|c|extra|more" = .ok initState) ∧
    (knownType "x" = false ∧
      Except.map (fun s => (s.by_type, s.process_timings))
        (process_message zclock initState "x" "foo" ["1", "x"]) =
        .ok (initState.by_type, initState.process_timings)) := by
  have h := C6_early_reject_no_self_metric zclock initState
  exact ⟨⟨by decide, h.1 _ (by decide)⟩,
         ⟨by decide, h.2.1 _ (by decide)⟩,
         ⟨by with_unfolding_all decide,
          h.2.2.1 _ (Or.inr (by with_unfolding_all decide))⟩,
         ⟨by decide, h.2.2.2 "x" "foo" ["1", "x"] (by decide)⟩⟩

/-- C7 (code-bug evidence): a gauge or meter message whose value does not
parse as a real raises `UnboundLocalError` out of the public ingest path
instead of being logged and dropped: the handler calls `self.fail(message)`
without `return` and falls through to `compose_*_metric(key, value)` with
the local `value` never assigned. -/
theorem C7_gauge_meter_unparsable_raises :
    process zclock initState "k:abc|g" = .error .unboundLocal ∧
    process zclock initState "k:abc|m" = .error .unboundLocal := by
  constructor <;> with_unfolding_all decide

theorem subRuns_eq_self (p : Char → Bool) (r : Char) (l : List Char)
    (h : ∀ c ∈ l, p c = false) : ∀ b, subRuns p r l b = l := by
  induction l with
  | nil => intro b; rfl
  | cons c cs ih =>
    intro b
    have hc : p c = false := h c (List.mem_cons_self c cs)
    simp only [subRuns, hc, Bool.false_eq_true, if_false]
    rw [ih (fun x hx => h x (List.mem_cons_of_mem c hx)) false]

theorem keyChar_not_space (c : Char) (h : isPySpace c = true) : isKeyChar c = false := by
  unfold isPySpace at h
  simp only [Bool.or_eq_true, decide_eq_true_eq] at h
  rcases h with ((((h | h) | h) | h) | h) | h <;> subst h <;> decide

theorem keyChar_not_slash (c : Char) (h : isSlash c = true) : isKeyChar c = false := by
  unfold isSlash at h
  simp only [decide_eq_true_eq] at h
  subst h
  decide

theorem normalize_key_idem (k : String) :
    normalize_key (normalize_key k) = normalize_key k := by
  unfold normalize_key
  set L := subRuns isSlash '-' (subRuns isPySpace '_' k.toList false) false with hL
  have htl : (String.mk (List.filter isKeyChar L)).toList = List.filter isKeyChar L := rfl
  rw [htl]
  have hall : ∀ c ∈ List.filter isKeyChar L, isKeyChar c = true :=
    fun c hc => List.of_mem_filter hc
  have hnospace : ∀ c ∈ List.filter isKeyChar L, isPySpace c = false := by
    intro c hc
    rcases hsp : isPySpace c
    · rfl
    · have hk' := keyChar_not_space c hsp
      rw [hall c hc] at hk'
      cases hk'
  have hnoslash : ∀ c ∈ List.filter isKeyChar L, isSlash c = false := by
    intro c hc
    rcases hsl : isSlash c
    · rfl
    · have hk' := keyChar_not_slash c hsl
      rw [hall c hc] at hk'
      cases hk'
  rw [subRuns_eq_self _ _ _ hnospace false, subRuns_eq_self _ _ _ hnoslash false,
    List.filter_eq_self.mpr hall]

/-- C8: `normalize_key` collapses whitespace runs to `_`, slash runs to
`-`, deletes everything outside `[A-Za-z0-9._-]` — so
`normalize_key "a b/c!d" = "a_b-cd"` — and it is idempotent. -/
theorem C8_normalize_key_example_and_idem (k : String) :
    normalize_key "a b/c!d" = "a_b-cd" ∧
    normalize_key (normalize_key k) = normalize_key k :=
  ⟨by decide, normalize_key_idem k⟩

/-- C9: with lightweight mode on in the legacy namespace, every counter
flush emits only the count line `(stats_counts.<key>, count, ts)` per key
and never the rate line. -/
theorem C9_lightweight_counter_flush (cfg : Config) (interval : ℚ) (ts : ℤ)
    (m : List (String × ℚ))
    (hlw : cfg.lightweight_mode = true) (hleg : cfg.legacy_namespace = true)
    (hI : interval ≠ 0) :
    flush_counter_metrics cfg interval ts m =
      .ok (m.map (fun kv => [("stats_counts." ++ kv.1, kv.2, ts)]),
           if cfg.delete_idle_counters then [] else m.map (fun kv => (kv.1, 0))) := by
  unfold flush_counter_metrics
  rw [if_neg (by rintro ⟨h0, _⟩; exact hI h0)]
  simp [flushCounterEntry, hlw, hleg, Config.count_prefix]

/-- C9 witness: a single counter `a = 10` under lightweight mode yields
exactly the single line `stats_counts.a 10 42`. -/
theorem C9_lightweight_counter_flush_witness :
    (({ lightweight_mode := true } : Config).lightweight_mode = true ∧
      ({ lightweight_mode := true } : Config).legacy_namespace = true ∧
      ((10 : ℚ) ≠ 0)) ∧
    flush_counter_metrics { lightweight_mode := true } 10 42 [("a", 10)] =
      .ok ([[("stats_counts.a", 10, 42)]], [("a", 0)]) := by
  refine ⟨⟨rfl, rfl, by norm_num⟩, ?_⟩
  exact (C9_lightweight_counter_flush { lightweight_mode := true } 10 42 [("a", 10)]
    rfl rfl (by norm_num)).trans (by with_unfolding_all decide)

/-- C10: counter processing is total only for nonzero parsed sampling
rates: `"k:1|c|@0"` passes the field-count check and the rate regex, after
which `value·(1/float("0"))` raises an unguarded `ZeroDivisionError` from
the public ingest interface, while the same message with rate `@0.5` is
processed normally. -/
theorem C10_zero_rate_division_reachable :
    process zclock initState "k:1|c|@0" = .error .zeroDivisionError ∧
    (process zclock initState "k:1|c|@0.5").toOption.isSome = true := by
  constructor <;> with_unfolding_all decide

end TxStatsd
